import Mathlib

/-!
Shallow embedding of `src/speech_ex/svm.cpp` (an OpenCV SVM train/evaluate
pipeline for spoken-letter recognition) and proofs about it.

Modelling conventions:
* C `float` values that flow through the program (CSV tokens, labels,
  predictions) are modelled as rationals `ℚ`; `FLT_EPSILON` is the rational
  value of the C constant, `2 ^ (-23)`.
* A file is `Option (List ℚ)`: `none` when `fopen` fails, otherwise the
  stream of numeric tokens that successive `fscanf("%f,")` calls consume.
  `fscanf` on an exhausted stream leaves its target variable unchanged,
  which is exactly what the C code (which ignores the `fscanf` return
  value) exhibits on a truncated file.
* The external SVM optimizer (OpenCV) is an abstract parameter `base`;
  the `train_auto` grid search, which is OpenCV library code and not part
  of this repository, is modelled from the spec on top of `base`.
* The write `false_positives[(int)(label - 1)]++` is embedded as a total,
  `Option`-returning update: `none` models the out-of-bounds access that
  in C would be undefined behaviour.
-/

namespace SpeechSvm

/-! ## Compile-time constants of svm.cpp -/

def NUMBER_OF_TRAINING_SAMPLES : Nat := 6238

def ATTRIBUTES_PER_SAMPLE : Nat := 617

def NUMBER_OF_TESTING_SAMPLES : Nat := 1559

def NUMBER_OF_CLASSES : Nat := 26

/-- The C constant `FLT_EPSILON` (single precision machine epsilon) as a
rational: `2 ^ (-23)`. -/
def FLT_EPSILON : ℚ := 1 / 2 ^ 23

/-! ## Dataset loader: `read_data_from_csv` -/

/-- A file handed to `read_data_from_csv`: `none` when `fopen` fails,
otherwise the stream of numeric tokens in the file. -/
abbrev File : Type := Option (List ℚ)

/-- One `fscanf(f, "%f,", &tmp)` call: pops the next token into `tmp` if
one is available, and leaves `tmp` unchanged otherwise (the C code never
checks the `fscanf` return value). Returns the new `tmp` and the rest of
the stream. -/
def scanToken : List ℚ → ℚ → ℚ × List ℚ
  | [], tmp => (tmp, [])
  | t :: ts, _ => (t, ts)

/-- The inner attribute loop for one line: reads `n` feature tokens,
returning the list of values written into `data` row cells, the final
value of `tmp`, and the remaining stream. -/
def scanRow : Nat → List ℚ → ℚ → List ℚ × ℚ × List ℚ
  | 0, ts, tmp => ([], tmp, ts)
  | n + 1, ts, tmp =>
    let (v, ts1) := scanToken ts tmp
    let (vs, tmp2, ts2) := scanRow n ts1 v
    (v :: vs, tmp2, ts2)

/-- The outer sample loop: for each of `n` lines, reads
`ATTRIBUTES_PER_SAMPLE` feature tokens and then one label token. Returns
the rows of the `data` matrix, the entries of the `classes` column, the
final `tmp`, and the remaining stream. -/
def scanLines : Nat → List ℚ → ℚ → List (List ℚ) × List ℚ × ℚ × List ℚ
  | 0, ts, tmp => ([], [], tmp, ts)
  | n + 1, ts, tmp =>
    let (row, tmp1, ts1) := scanRow ATTRIBUTES_PER_SAMPLE ts tmp
    let (lab, ts2) := scanToken ts1 tmp1
    let (rows, labs, tmp3, ts3) := scanLines n ts2 lab
    (row :: rows, lab :: labs, tmp3, ts3)

/-- Embedding of `read_data_from_csv` (svm.cpp lines 41-86). The first
component is `none` when the file cannot be opened (the C function prints
an error and returns `0`) and otherwise `some (data, classes)` (the C
function returns `1` after filling the matrices). The second component is
the number of file handles still open on return: `fopen` acquires one on
success and `fclose` releases it on the success path; the failure path
never acquires one, so it is `0` on every exit path. -/
def read_data_from_csv (file : File) (tmp0 : ℚ) (n_samples : Nat) :
    Option (List (List ℚ) × List ℚ) × Nat :=
  match file with
  | none => (none, 0)
  | some ts =>
    let (rows, labs, _, _) := scanLines n_samples ts tmp0
    (some (rows, labs), 1 - 1)

/-! ## SVM parameters and the external optimizer boundary -/

/-- The fields of `CvSVMParams` used by svm.cpp: SVM type, kernel type,
the kernel parameters, the optimization parameters, and the termination
criteria (class weights are `NULL` in the source and omitted). -/
structure SvmParams where
  svm_type : Nat
  kernel_type : Nat
  degree : ℚ
  gamma : ℚ
  coef0 : ℚ
  C : ℚ
  nu : ℚ
  p : ℚ
  term_max_iter : Nat
  term_epsilon : ℚ
deriving DecidableEq

/-- `CvSVM::C_SVC` (OpenCV constant 100). -/
def C_SVC : Nat := 100

/-- `CvSVM::LINEAR` (OpenCV constant 0). -/
def LINEAR : Nat := 0

/-- The `CvSVMParams` literal built in `main` (svm.cpp lines 117-136):
C-classification SVM, linear kernel, `C = 10`, termination after 1000
iterations or convergence below `0.000001`. -/
def params0 : SvmParams :=
  { svm_type := C_SVC
    kernel_type := LINEAR
    degree := 0
    gamma := 0
    coef0 := 0
    C := 10
    nu := 0
    p := 0
    term_max_iter := 1000
    term_epsilon := 1 / 1000000 }

/-- A trained SVM (`CvSVM` object after training): a prediction function
over feature vectors, the support-vector count diagnostic, and the
parameters stored in the model, read back by `get_params`. -/
structure TrainedModel where
  predict : List ℚ → ℚ
  support_vector_count : Nat
  params : SvmParams

/-- The external margin-optimization capability (the OpenCV solver that
fits one SVM for fixed hyperparameters). Given parameters, a feature
matrix and a label column it produces a prediction function and a
support-vector count. It is an abstract parameter of the development:
reimplementing the convex optimizer is out of scope. -/
abbrev BaseTrainer : Type :=
  SvmParams → List (List ℚ) → List ℚ → (List ℚ → ℚ) × Nat

/-! ## Grid search (`CvSVM::train_auto`), modelled from the spec

The grid search lives in the OpenCV library, not in this repository;
svm.cpp only calls it (lines 155-157). The definitions below are
therefore modelled from the spec rather than translated from source. -/

/-- Modelled from the spec: the predefined log-spaced grid of `C` values
searched by the auto-training routine (kernel choice and kernel
parameters are not part of the grid). -/
def c_grid : List ℚ := [1 / 10, 1 / 2, 5 / 2, 25 / 2, 125 / 2, 625 / 2]

/-- First-minimum selection over a candidate list: returns the candidate
with the lowest score, keeping the incumbent on ties (the deterministic
tie-break of the search routine). -/
def argminFrom (f : ℚ → ℚ) : ℚ → List ℚ → ℚ
  | best, [] => best
  | best, c :: cs =>
    if f c < f best then argminFrom f c cs else argminFrom f best cs

/-- Modelled from the spec: misclassification count of a model on a list
of (features, label) pairs, used inside cross-validation. -/
def errCount (predict : List ℚ → ℚ) (test : List (List ℚ × ℚ)) : Nat :=
  test.countP (fun s => predict s.1 != s.2)

/-- Modelled from the spec: the samples assigned to fold `j` out of `k`
(sample `i` belongs to fold `i % k`). -/
def foldPart (k j : Nat) (samples : List (List ℚ × ℚ)) : List (List ℚ × ℚ) :=
  (samples.enum.filter (fun s => s.1 % k == j)).map Prod.snd

/-- Modelled from the spec: the training portion complementary to fold
`j`: every sample not assigned to fold `j`. -/
def foldRest (k j : Nat) (samples : List (List ℚ × ℚ)) : List (List ℚ × ℚ) :=
  (samples.enum.filter (fun s => s.1 % k != j)).map Prod.snd

/-- Modelled from the spec: `k`-fold cross-validated error of the grid
point `c`: for each fold, train on the other folds and measure the
misclassification rate on the held-out fold, then average over folds. -/
def cvError (base : BaseTrainer) (pms : SvmParams) (k : Nat) (c : ℚ)
    (samples : List (List ℚ × ℚ)) : ℚ :=
  (((List.range k).map (fun j =>
    let tr := foldRest k j samples
    let ho := foldPart k j samples
    let (pf, _) := base { pms with C := c } (tr.map Prod.fst) (tr.map Prod.snd)
    (errCount pf ho : ℚ) / (ho.length : ℚ))).sum) / (k : ℚ)

/-- Modelled from the spec: the winning `C`: the grid point of `c_grid`
with the lowest cross-validated error (first minimum on ties). -/
def selectC (f : ℚ → ℚ) : ℚ :=
  argminFrom f (c_grid.headD 0) c_grid.tail

/-- Modelled from the spec: `CvSVM::train_auto` with `k_fold`-fold
cross-validation. Searches `C` over `c_grid` with the kernel and its
parameters held fixed, retrains once on the full training set with the
winning value, and stores the effective parameters in the model (where
`get_params` reads them back). Returns the effective parameters and the
trained model. -/
def train_auto (base : BaseTrainer) (data : List (List ℚ)) (classes : List ℚ)
    (pms : SvmParams) (k_fold : Nat) : SvmParams × TrainedModel :=
  let samples := data.zip classes
  let cbest := selectC (fun c => cvError base pms k_fold c samples)
  let eff := { pms with C := cbest }
  let res := base eff data classes
  (eff, { predict := res.1, support_vector_count := res.2, params := eff })

/-- `CvSVM::get_params` on a trained model. -/
def get_params (m : TrainedModel) : SvmParams := m.params

/-! ## Evaluation harness (the testing loop of `main`, lines 176-225) -/

/-- The C cast `(int) q`: truncation toward zero, i.e. the truncating
integer division of the numerator of `q` by its denominator. -/
def cTrunc (q : ℚ) : ℤ := q.num.tdiv q.den

/-- Incrementing the cell at position `n` of a list of counters; `none`
when the position does not exist. -/
def listIncAt : List Nat → Nat → Option (List Nat)
  | [], _ => none
  | x :: xs, 0 => some ((x + 1) :: xs)
  | x :: xs, n + 1 => (listIncAt xs n).map (fun ys => x :: ys)

/-- Total embedding of the array write `false_positives[idx]++` for a
possibly negative C index: `none` models the out-of-bounds access that in
C would be undefined behaviour. -/
def fpIncrement (fp : List Nat) (idx : ℤ) : Option (List Nat) :=
  if idx < 0 then none else listIncAt fp idx.toNat

/-- The accumulator variables of the testing loop: `correct_class`,
`wrong_class` and the `false_positives` counter array. -/
structure EvalCounts where
  correct_class : Nat
  wrong_class : Nat
  false_positives : List Nat
deriving DecidableEq

/-- The accumulator state after the zeroing loop (svm.cpp lines 176-188):
both counters zero and `NUMBER_OF_CLASSES` zeroed false-positive cells. -/
def initCounts : EvalCounts :=
  { correct_class := 0
    wrong_class := 0
    false_positives := List.replicate NUMBER_OF_CLASSES 0 }

/-- The call `svm->predict(test_sample)`: a `const` method, embedded as
returning the prediction together with the (unchanged) model object. -/
def svmPredict (m : TrainedModel) (features : List ℚ) : ℚ × TrainedModel :=
  (m.predict features, m)

/-- The body of the testing loop for one sample (svm.cpp lines 197-224):
predict, then compare to the true label with the `FLT_EPSILON` tolerance;
on a mismatch increment `wrong_class` and the false-positive cell of the
true class `(int)(label - 1)`, on a match increment `correct_class`. -/
def evalStep (m : TrainedModel) (features : List ℚ) (label : ℚ)
    (acc : EvalCounts) : Option EvalCounts × TrainedModel :=
  let (result, m1) := svmPredict m features
  if FLT_EPSILON ≤ |result - label| then
    ((fpIncrement acc.false_positives (cTrunc (label - 1))).map (fun fp =>
      { acc with wrong_class := acc.wrong_class + 1, false_positives := fp }),
      m1)
  else
    (some { acc with correct_class := acc.correct_class + 1 }, m1)

/-- The testing loop over the zipped test rows and labels. The first
component is `none` as soon as a sample triggers the out-of-bounds
counter write; the second threads the model through every `predict`
call. -/
def evalLoop (m : TrainedModel) :
    List (List ℚ × ℚ) → EvalCounts → Option EvalCounts × TrainedModel
  | [], acc => (some acc, m)
  | s :: rest, acc =>
    match evalStep m s.1 s.2 acc with
    | (none, m1) => (none, m1)
    | (some acc1, m1) => evalLoop m1 rest acc1

/-! ## Reported percentages (svm.cpp lines 227-239) -/

/-- `(double) correct_class * 100 / NUMBER_OF_TESTING_SAMPLES`. -/
def correct_percentage (c : EvalCounts) : ℚ :=
  (c.correct_class : ℚ) * 100 / (NUMBER_OF_TESTING_SAMPLES : ℚ)

/-- `(double) wrong_class * 100 / NUMBER_OF_TESTING_SAMPLES`. -/
def wrong_percentage (c : EvalCounts) : ℚ :=
  (c.wrong_class : ℚ) * 100 / (NUMBER_OF_TESTING_SAMPLES : ℚ)

/-- `(double) false_positives[i] * 100 / NUMBER_OF_TESTING_SAMPLES`. -/
def fp_percentage (c : EvalCounts) (i : Nat) : ℚ :=
  ((c.false_positives.getD i 0 : Nat) : ℚ) * 100 / (NUMBER_OF_TESTING_SAMPLES : ℚ)

/-! ## `main` (svm.cpp lines 90-251) -/

/-- The observable outcome of one run of `main`: a dataset load failure
(exit code `-1`), a completed evaluation (exit code `0`, carrying the
effective parameters read back by `get_params`, the support-vector count
and the accumulated counts), or the undefined behaviour of an
out-of-bounds counter write during evaluation. -/
inductive MainResult where
  | loadFailure : MainResult
  | ok : SvmParams → Nat → EvalCounts → MainResult
  | undefinedBehavior : MainResult
deriving DecidableEq

/-- Embedding of `main`: load the training file, load the testing file
(short-circuit `&&`: the second load only happens when the first
succeeds), auto-train with 10-fold grid search, read the effective
parameters back from the model, and run the testing loop. `tmp0` is the
indeterminate initial value of the uninitialized local `tmp` of
`read_data_from_csv`. -/
def runMain (base : BaseTrainer) (trainFile testFile : File) (tmp0 : ℚ) :
    MainResult :=
  match (read_data_from_csv trainFile tmp0 NUMBER_OF_TRAINING_SAMPLES).1 with
  | none => MainResult.loadFailure
  | some (training_data, training_classifications) =>
    match (read_data_from_csv testFile tmp0 NUMBER_OF_TESTING_SAMPLES).1 with
    | none => MainResult.loadFailure
    | some (testing_data, testing_classifications) =>
      let svm :=
        (train_auto base training_data training_classifications params0 10).2
      let effective := get_params svm
      match evalLoop svm (testing_data.zip testing_classifications) initCounts with
      | (none, _) => MainResult.undefinedBehavior
      | (some counts, _) =>
        MainResult.ok effective svm.support_vector_count counts

/-- The exit code of a run: `0` on a completed evaluation, `-1` on a load
failure, and undefined (no well-defined exit) after undefined
behaviour. -/
def exitCode : MainResult → Option ℤ
  | MainResult.loadFailure => some (-1)
  | MainResult.ok _ _ _ => some 0
  | MainResult.undefinedBehavior => none

/-! ## Dataset format (spec section 6) -/

/-- A label value as the format prescribes it: the rational image of an
integer in `[1, NUMBER_OF_CLASSES]`. -/
def labelInRange (l : ℚ) : Prop :=
  ∃ k : ℤ, l = (k : ℚ) ∧ 1 ≤ k ∧ k ≤ (NUMBER_OF_CLASSES : ℤ)

/-- The token stream of a file conforming to the dataset format: for each
sample in order, its feature tokens followed by its label token. -/
def encodeCsv : List (List ℚ × ℚ) → List ℚ
  | [] => []
  | s :: rest => s.1 ++ s.2 :: encodeCsv rest


/-- The feature matrix that `read_data_from_csv` leaves in `data` when
the file opens with token stream `file`. -/
def loadedData (file : List ℚ) (tmp0 : ℚ) (n : Nat) : List (List ℚ) :=
  (scanLines n file tmp0).1

/-- The label column that `read_data_from_csv` leaves in `classes` when
the file opens with token stream `file`. -/
def loadedClasses (file : List ℚ) (tmp0 : ℚ) (n : Nat) : List ℚ :=
  (scanLines n file tmp0).2.1

/-- The model produced by the auto-training call of `main` on the loaded
training set. -/
def trainedSvm (base : BaseTrainer) (ts : List ℚ) (tmp0 : ℚ) : TrainedModel :=
  (train_auto base (loadedData ts tmp0 NUMBER_OF_TRAINING_SAMPLES)
    (loadedClasses ts tmp0 NUMBER_OF_TRAINING_SAMPLES) params0 10).2

/-- The outcome of the testing loop of `main` when both files open. -/
def evalOutcome (base : BaseTrainer) (ts us : List ℚ) (tmp0 : ℚ) :
    Option EvalCounts :=
  (evalLoop (trainedSvm base ts tmp0)
    ((loadedData us tmp0 NUMBER_OF_TESTING_SAMPLES).zip
      (loadedClasses us tmp0 NUMBER_OF_TESTING_SAMPLES)) initCounts).1

/-! ## Helper lemmas -/

theorem cTrunc_intCast (k : ℤ) : cTrunc (k : ℚ) = k := by
  simp [cTrunc, Rat.num_intCast, Rat.den_intCast, Int.tdiv_one]

theorem listIncAt_some : ∀ (fp : List Nat) (n : Nat), n < fp.length →
    ∃ fp2, listIncAt fp n = some fp2 ∧ fp2.length = fp.length ∧
      fp2.sum = fp.sum + 1
  | [], n, h => absurd h (by simp)
  | x :: xs, 0, _ =>
    ⟨(x + 1) :: xs, rfl, by simp, by simp [List.sum_cons]; omega⟩
  | x :: xs, n + 1, h => by
    obtain ⟨ys, hy, hl, hs⟩ := listIncAt_some xs n (by simpa using h)
    exact ⟨x :: ys, by simp [listIncAt, hy], by simp [hl],
      by simp [List.sum_cons, hs]; omega⟩

theorem listIncAt_none : ∀ (fp : List Nat) (n : Nat), fp.length ≤ n →
    listIncAt fp n = none
  | [], _, _ => rfl
  | x :: xs, n + 1, h => by
    simp [listIncAt, listIncAt_none xs n (by simpa using h)]

theorem fpIncrement_some (fp : List Nat) (k : ℤ) (h1 : 0 ≤ k)
    (h2 : k.toNat < fp.length) :
    ∃ fp2, fpIncrement fp k = some fp2 ∧ fp2.length = fp.length ∧
      fp2.sum = fp.sum + 1 := by
  simpa [fpIncrement, not_lt.mpr h1] using listIncAt_some fp k.toNat h2

theorem evalStep_wrong (m : TrainedModel) (fs : List ℚ) (lab : ℚ)
    (acc : EvalCounts) (h : FLT_EPSILON ≤ |m.predict fs - lab|) :
    evalStep m fs lab acc =
      ((fpIncrement acc.false_positives (cTrunc (lab - 1))).map (fun fp =>
        { acc with wrong_class := acc.wrong_class + 1,
                   false_positives := fp }), m) := by
  simp [evalStep, svmPredict, h]

theorem evalStep_correct (m : TrainedModel) (fs : List ℚ) (lab : ℚ)
    (acc : EvalCounts) (h : |m.predict fs - lab| < FLT_EPSILON) :
    evalStep m fs lab acc =
      (some { acc with correct_class := acc.correct_class + 1 }, m) := by
  simp [evalStep, svmPredict, not_le.mpr h]

theorem evalStep_snd (m : TrainedModel) (fs : List ℚ) (lab : ℚ)
    (acc : EvalCounts) : (evalStep m fs lab acc).2 = m := by
  by_cases h : FLT_EPSILON ≤ |m.predict fs - lab|
  · simp [evalStep, svmPredict, h]
  · simp [evalStep, svmPredict, h]

theorem evalLoop_snd :
    ∀ (samples : List (List ℚ × ℚ)) (m : TrainedModel) (acc : EvalCounts),
      (evalLoop m samples acc).2 = m
  | [], _, _ => rfl
  | s :: rest, m, acc => by
    have hsnd := evalStep_snd m s.1 s.2 acc
    rcases h : evalStep m s.1 s.2 acc with ⟨o, m1⟩
    have hm : m1 = m := by rw [h] at hsnd; exact hsnd
    rw [show evalLoop m (s :: rest) acc =
      match evalStep m s.1 s.2 acc with
      | (none, m2) => (none, m2)
      | (some a1, m2) => evalLoop m2 rest a1 from rfl, h]
    cases o with
    | none => simpa using hm
    | some acc1 => rw [hm]; exact evalLoop_snd rest m acc1

theorem cTrunc_label_bounds (lab : ℚ) (h : labelInRange lab) :
    0 ≤ cTrunc (lab - 1) ∧ cTrunc (lab - 1) < (NUMBER_OF_CLASSES : ℤ) := by
  obtain ⟨k, hk, h1, h2⟩ := h
  have : lab - 1 = ((k - 1 : ℤ) : ℚ) := by rw [hk]; push_cast; ring
  rw [this, cTrunc_intCast]
  omega

theorem evalLoop_inv :
    ∀ (samples : List (List ℚ × ℚ)) (m : TrainedModel) (acc : EvalCounts),
      (∀ s ∈ samples, labelInRange s.2) →
      acc.false_positives.length = NUMBER_OF_CLASSES →
      ∃ c, (evalLoop m samples acc).1 = some c ∧
        c.false_positives.length = NUMBER_OF_CLASSES ∧
        ∃ dc dw, c.correct_class = acc.correct_class + dc ∧
          c.wrong_class = acc.wrong_class + dw ∧
          dc + dw = samples.length ∧
          c.false_positives.sum = acc.false_positives.sum + dw
  | [], m, acc, _, hlen =>
    ⟨acc, rfl, hlen, 0, 0, rfl, rfl, rfl, rfl⟩
  | s :: rest, m, acc, hlab, hlen => by
    have hs : labelInRange s.2 := hlab s (by simp)
    have hrest : ∀ t ∈ rest, labelInRange t.2 :=
      fun t ht => hlab t (by simp [ht])
    by_cases h : FLT_EPSILON ≤ |m.predict s.1 - s.2|
    · obtain ⟨hb1, hb2⟩ := cTrunc_label_bounds s.2 hs
      obtain ⟨fp2, hfp, hfl, hfs⟩ :=
        fpIncrement_some acc.false_positives (cTrunc (s.2 - 1)) hb1
          (by omega)
      set acc1 : EvalCounts :=
        { acc with wrong_class := acc.wrong_class + 1,
                   false_positives := fp2 } with hacc1
      obtain ⟨c, hc, hcl, dc, dw, hdc, hdw, hsum, hfsum⟩ :=
        evalLoop_inv rest m acc1 hrest (by simp [hacc1, hfl, hlen])
      refine ⟨c, ?_, hcl, dc, dw + 1, ?_, ?_, ?_, ?_⟩
      · rw [show evalLoop m (s :: rest) acc =
          match evalStep m s.1 s.2 acc with
          | (none, m1) => (none, m1)
          | (some a1, m1) => evalLoop m1 rest a1 from rfl,
          evalStep_wrong m s.1 s.2 acc h, hfp]
        exact hc
      · simpa [hacc1] using hdc
      · simp [hacc1] at hdw; omega
      · simp only [List.length_cons]; omega
      · simp [hacc1, hfs] at hfsum; omega
    · set acc1 : EvalCounts :=
        { acc with correct_class := acc.correct_class + 1 } with hacc1
      obtain ⟨c, hc, hcl, dc, dw, hdc, hdw, hsum, hfsum⟩ :=
        evalLoop_inv rest m acc1 hrest (by simp [hacc1, hlen])
      refine ⟨c, ?_, hcl, dc + 1, dw, ?_, ?_, ?_, ?_⟩
      · rw [show evalLoop m (s :: rest) acc =
          match evalStep m s.1 s.2 acc with
          | (none, m1) => (none, m1)
          | (some a1, m1) => evalLoop m1 rest a1 from rfl,
          evalStep_correct m s.1 s.2 acc (not_le.mp h)]
        exact hc
      · simp [hacc1] at hdc; omega
      · simpa [hacc1] using hdw
      · simp only [List.length_cons]; omega
      · simpa [hacc1] using hfsum


theorem read_data_from_csv_none (tmp0 : ℚ) (n : Nat) :
    read_data_from_csv none tmp0 n = (none, 0) := rfl

theorem read_data_from_csv_some (ts : List ℚ) (tmp0 : ℚ) (n : Nat) :
    read_data_from_csv (some ts) tmp0 n =
      (some (loadedData ts tmp0 n, loadedClasses ts tmp0 n), 0) := by
  rcases h : scanLines n ts tmp0 with ⟨rows, labs, tmp, rest⟩
  simp only [read_data_from_csv, loadedData, loadedClasses, h]

theorem read_data_from_csv_some_ex (ts : List ℚ) (tmp0 : ℚ) (n : Nat) :
    ∃ ld lc, read_data_from_csv (some ts) tmp0 n = (some (ld, lc), 0) ∧
      ld = loadedData ts tmp0 n ∧ lc = loadedClasses ts tmp0 n :=
  ⟨loadedData ts tmp0 n, loadedClasses ts tmp0 n,
    read_data_from_csv_some ts tmp0 n, rfl, rfl⟩

theorem runMain_fail_fst (base : BaseTrainer) (tf uf : File) (tmp0 : ℚ)
    (h : (read_data_from_csv tf tmp0 NUMBER_OF_TRAINING_SAMPLES).1 = none) :
    runMain base tf uf tmp0 = MainResult.loadFailure := by
  simp only [runMain, h]

theorem runMain_fail_snd (base : BaseTrainer) (tf uf : File) (tmp0 : ℚ)
    (ld : List (List ℚ)) (lc : List ℚ)
    (h : (read_data_from_csv tf tmp0 NUMBER_OF_TRAINING_SAMPLES).1 =
      some (ld, lc))
    (g : (read_data_from_csv uf tmp0 NUMBER_OF_TESTING_SAMPLES).1 = none) :
    runMain base tf uf tmp0 = MainResult.loadFailure := by
  simp only [runMain, h, g]

theorem runMain_ub (base : BaseTrainer) (tf uf : File) (tmp0 : ℚ)
    (ld ed : List (List ℚ)) (lc ec : List ℚ)
    (h : (read_data_from_csv tf tmp0 NUMBER_OF_TRAINING_SAMPLES).1 =
      some (ld, lc))
    (g : (read_data_from_csv uf tmp0 NUMBER_OF_TESTING_SAMPLES).1 =
      some (ed, ec))
    (hE : (evalLoop (train_auto base ld lc params0 10).2 (ed.zip ec)
      initCounts).1 = none) :
    runMain base tf uf tmp0 = MainResult.undefinedBehavior := by
  simp only [runMain, h, g]
  rcases hP : evalLoop (train_auto base ld lc params0 10).2 (ed.zip ec)
      initCounts with ⟨o, mm⟩
  rw [hP] at hE
  cases o with
  | none => rfl
  | some c => simp at hE

theorem runMain_ok (base : BaseTrainer) (tf uf : File) (tmp0 : ℚ)
    (ld ed : List (List ℚ)) (lc ec : List ℚ) (counts : EvalCounts)
    (h : (read_data_from_csv tf tmp0 NUMBER_OF_TRAINING_SAMPLES).1 =
      some (ld, lc))
    (g : (read_data_from_csv uf tmp0 NUMBER_OF_TESTING_SAMPLES).1 =
      some (ed, ec))
    (hE : (evalLoop (train_auto base ld lc params0 10).2 (ed.zip ec)
      initCounts).1 = some counts) :
    runMain base tf uf tmp0 =
      MainResult.ok (get_params (train_auto base ld lc params0 10).2)
        ((train_auto base ld lc params0 10).2).support_vector_count counts := by
  simp only [runMain, h, g]
  rcases hP : evalLoop (train_auto base ld lc params0 10).2 (ed.zip ec)
      initCounts with ⟨o, mm⟩
  rw [hP] at hE
  cases o with
  | none => simp at hE
  | some c => rw [show c = counts from by simpa using hE]


theorem scanRow_nil : ∀ (n : Nat) (tmp : ℚ),
    scanRow n [] tmp = (List.replicate n tmp, tmp, [])
  | 0, _ => rfl
  | n + 1, tmp => by
    simp only [scanRow, scanToken, scanRow_nil n tmp, List.replicate_succ]

theorem scanRow_append : ∀ (r rest : List ℚ) (tmp : ℚ),
    scanRow r.length (r ++ rest) tmp = (r, r.getLastD tmp, rest)
  | [], _, _ => rfl
  | v :: vs, rest, tmp => by
    simp only [List.length_cons, List.cons_append, scanRow, scanToken,
      scanRow_append vs rest v, List.getLastD_cons]

set_option maxRecDepth 4000 in
theorem scanLines_nilStream : ∀ (n : Nat) (tmp : ℚ),
    scanLines n [] tmp =
      (List.replicate n (List.replicate ATTRIBUTES_PER_SAMPLE tmp),
       List.replicate n tmp, tmp, [])
  | 0, _ => rfl
  | n + 1, tmp => by
    simp only [scanLines, scanRow_nil, scanToken, scanLines_nilStream n tmp,
      List.replicate_succ]

theorem scanLines_encode :
    ∀ (samples : List (List ℚ × ℚ)) (tmp : ℚ),
      (∀ s ∈ samples, s.1.length = ATTRIBUTES_PER_SAMPLE) →
      ∃ tmp2, scanLines samples.length (encodeCsv samples) tmp =
        (samples.map Prod.fst, samples.map Prod.snd, tmp2, [])
  | [], tmp, _ => ⟨tmp, rfl⟩
  | s :: rest, tmp, h => by
    have hs : s.1.length = ATTRIBUTES_PER_SAMPLE := h s (by simp)
    have hrest : ∀ t ∈ rest, t.1.length = ATTRIBUTES_PER_SAMPLE :=
      fun t ht => h t (by simp [ht])
    obtain ⟨tmp2, ih⟩ := scanLines_encode rest s.2 hrest
    refine ⟨tmp2, ?_⟩
    have hrow := scanRow_append s.1 (s.2 :: encodeCsv rest) tmp
    rw [hs] at hrow
    simp only [encodeCsv, List.length_cons, List.map_cons]
    simp only [scanLines, hrow, scanToken, ih]

theorem argminFrom_mem (f : ℚ → ℚ) : ∀ (l : List ℚ) (b : ℚ),
    argminFrom f b l ∈ b :: l
  | [], b => by simp [argminFrom]
  | c :: cs, b => by
    simp only [argminFrom]
    by_cases h : f c < f b
    · rw [if_pos h]
      have hm := argminFrom_mem f cs c
      simp only [List.mem_cons] at hm ⊢
      tauto
    · rw [if_neg h]
      have hm := argminFrom_mem f cs b
      simp only [List.mem_cons] at hm ⊢
      tauto

theorem argminFrom_le (f : ℚ → ℚ) : ∀ (l : List ℚ) (b : ℚ),
    f (argminFrom f b l) ≤ f b ∧ ∀ c ∈ l, f (argminFrom f b l) ≤ f c
  | [], _ => ⟨le_refl _, by simp⟩
  | c :: cs, b => by
    simp only [argminFrom]
    by_cases h : f c < f b
    · rw [if_pos h]
      obtain ⟨h1, h2⟩ := argminFrom_le f cs c
      refine ⟨le_trans h1 (le_of_lt h), fun d hd => ?_⟩
      rcases List.mem_cons.mp hd with rfl | hd
      · exact h1
      · exact h2 d hd
    · rw [if_neg h]
      obtain ⟨h1, h2⟩ := argminFrom_le f cs b
      refine ⟨h1, fun d hd => ?_⟩
      rcases List.mem_cons.mp hd with rfl | hd
      · exact le_trans h1 (not_lt.mp h)
      · exact h2 d hd

theorem c_grid_cons : c_grid = c_grid.headD 0 :: c_grid.tail := rfl

theorem selectC_mem (f : ℚ → ℚ) : selectC f ∈ c_grid := by
  rw [c_grid_cons]
  exact argminFrom_mem f c_grid.tail (c_grid.headD 0)

theorem selectC_min (f : ℚ → ℚ) : ∀ c ∈ c_grid, f (selectC f) ≤ f c := by
  intro c hc
  rw [c_grid_cons] at hc
  rcases List.mem_cons.mp hc with rfl | hc
  · exact (argminFrom_le f c_grid.tail (c_grid.headD 0)).1
  · exact (argminFrom_le f c_grid.tail (c_grid.headD 0)).2 c hc

/-! ## Claim theorems -/

/-- C1: for every test set whose true labels are integers in
`[1, NUMBER_OF_CLASSES]`, the evaluation loop completes and afterwards
`correct_class + wrong_class` equals the number of test samples exactly
and the sum of `false_positives` over all classes equals `wrong_class`
exactly; the same invariant holds after each individual sample, i.e. for
every prefix of the test set, relative to the samples processed so far. -/
theorem claim_C1 (m : TrainedModel) (samples : List (List ℚ × ℚ))
    (hlab : ∀ s ∈ samples, labelInRange s.2) :
    (∃ c, (evalLoop m samples initCounts).1 = some c ∧
      c.correct_class + c.wrong_class = samples.length ∧
      c.false_positives.sum = c.wrong_class) ∧
    ∀ k, k ≤ samples.length → ∃ c,
      (evalLoop m (samples.take k) initCounts).1 = some c ∧
      c.correct_class + c.wrong_class = k ∧
      c.false_positives.sum = c.wrong_class := by
  have main : ∀ (l : List (List ℚ × ℚ)), (∀ s ∈ l, labelInRange s.2) →
      ∃ c, (evalLoop m l initCounts).1 = some c ∧
        c.correct_class + c.wrong_class = l.length ∧
        c.false_positives.sum = c.wrong_class := by
    intro l hl
    obtain ⟨c, hc, hcl, dc, dw, hdc, hdw, hsum, hfsum⟩ :=
      evalLoop_inv l m initCounts hl (by simp [initCounts])
    refine ⟨c, hc, ?_, ?_⟩
    · simp [initCounts] at hdc hdw; omega
    · simp [initCounts] at hdw hfsum; omega
  refine ⟨main samples hlab, fun k hk => ?_⟩
  obtain ⟨c, hc, hlen, hsum⟩ :=
    main (samples.take k) (fun s hs => hlab s (List.take_subset k samples hs))
  refine ⟨c, hc, ?_, hsum⟩
  rw [List.length_take] at hlen
  omega

/-- Witness for C1: a concrete model that always predicts 2 on two
concrete test samples with labels 1 and 2. -/
theorem claim_C1_witness :
    ∃ c, (evalLoop ⟨fun _ => 2, 0, params0⟩ [([], 1), ([], 2)]
        initCounts).1 = some c ∧
      c.correct_class + c.wrong_class = 2 ∧
      c.false_positives.sum = c.wrong_class := by
  have h := (claim_C1 ⟨fun _ => 2, 0, params0⟩ [([], 1), ([], 2)] ?_).1
  · simpa using h
  · intro s hs
    simp only [List.mem_cons, List.not_mem_nil, or_false] at hs
    rcases hs with h1 | h1 <;> rw [h1]
    · exact ⟨1, by norm_num, by norm_num, by norm_num [NUMBER_OF_CLASSES]⟩
    · exact ⟨2, by norm_num, by norm_num, by norm_num [NUMBER_OF_CLASSES]⟩

/-- C2: one iteration of the testing loop classifies the prediction as a
mismatch exactly when the absolute difference between the prediction and
the true label is at least `FLT_EPSILON`; on a mismatch it increments
`wrong_class` and the false-positive cell indexed by the true label (not
the predicted one), and on a match it increments `correct_class`. -/
theorem claim_C2 (m : TrainedModel) (fs : List ℚ) (lab : ℚ)
    (acc : EvalCounts) :
    (FLT_EPSILON ≤ |m.predict fs - lab| →
      evalStep m fs lab acc =
        ((fpIncrement acc.false_positives (cTrunc (lab - 1))).map (fun fp =>
          { acc with wrong_class := acc.wrong_class + 1,
                     false_positives := fp }), m)) ∧
    (|m.predict fs - lab| < FLT_EPSILON →
      evalStep m fs lab acc =
        (some { acc with correct_class := acc.correct_class + 1 }, m)) :=
  ⟨fun h => evalStep_wrong m fs lab acc h,
   fun h => evalStep_correct m fs lab acc h⟩

/-- Witness for C2: a model predicting 2 against true label 1 takes the
mismatch branch. -/
theorem claim_C2_witness :
    evalStep ⟨fun _ => (2 : ℚ), 0, params0⟩ [] 1 initCounts =
      ((fpIncrement initCounts.false_positives (cTrunc ((1 : ℚ) - 1))).map
        (fun fp => ⟨initCounts.correct_class, initCounts.wrong_class + 1, fp⟩),
       (⟨fun _ => (2 : ℚ), 0, params0⟩ : TrainedModel)) :=
  (claim_C2 ⟨fun _ => (2 : ℚ), 0, params0⟩ [] 1 initCounts).1 (by
    show FLT_EPSILON ≤ |(2 : ℚ) - 1|
    norm_num [FLT_EPSILON])

/-- C9: the false-positive tally indexes the counter array at the C cast
of `label - 1`; when the true label is an integer in
`[1, NUMBER_OF_CLASSES]` this index is within bounds and the total,
Option-returning embedding of the array write succeeds, while an integer
label outside that range makes the write return `none`. -/
theorem claim_C9 (fp : List Nat) (lab : ℚ)
    (hlen : fp.length = NUMBER_OF_CLASSES) :
    (labelInRange lab →
      0 ≤ cTrunc (lab - 1) ∧ cTrunc (lab - 1) < (NUMBER_OF_CLASSES : ℤ) ∧
      (fpIncrement fp (cTrunc (lab - 1))).isSome = true) ∧
    (∀ k : ℤ, lab = (k : ℚ) → k < 1 ∨ (NUMBER_OF_CLASSES : ℤ) < k →
      fpIncrement fp (cTrunc (lab - 1)) = none) := by
  constructor
  · intro h
    obtain ⟨h1, h2⟩ := cTrunc_label_bounds lab h
    obtain ⟨fp2, hfp, _, _⟩ :=
      fpIncrement_some fp (cTrunc (lab - 1)) h1 (by omega)
    exact ⟨h1, h2, by simp [hfp]⟩
  · intro k hk hout
    have hc : lab - 1 = ((k - 1 : ℤ) : ℚ) := by rw [hk]; push_cast; ring
    rw [hc, cTrunc_intCast]
    rcases hout with h | h
    · simp only [fpIncrement]
      rw [if_pos (by omega)]
    · simp only [fpIncrement]
      rw [if_neg (by omega)]
      exact listIncAt_none fp _ (by omega)

/-- Witness for C9: the in-range label 5 on a zeroed counter array. -/
theorem claim_C9_witness :
    0 ≤ cTrunc ((5 : ℚ) - 1) ∧
    cTrunc ((5 : ℚ) - 1) < (NUMBER_OF_CLASSES : ℤ) ∧
    (fpIncrement (List.replicate NUMBER_OF_CLASSES 0)
      (cTrunc ((5 : ℚ) - 1))).isSome = true :=
  (claim_C9 (List.replicate NUMBER_OF_CLASSES 0) 5 (by simp)).1
    ⟨5, by norm_num, by norm_num, by norm_num [NUMBER_OF_CLASSES]⟩

/-- C3: the run exits with code 0 exactly when both dataset files open
and the evaluation loop completes, exits with code -1 as soon as either
file cannot be opened, and on an `fopen` failure the loader returns its
failure indicator with no partial dataset. -/
theorem claim_C3 (base : BaseTrainer) (trainFile testFile : File)
    (tmp0 : ℚ) :
    (exitCode (runMain base trainFile testFile tmp0) = some 0 ↔
      trainFile ≠ none ∧ testFile ≠ none ∧
      runMain base trainFile testFile tmp0 ≠ MainResult.undefinedBehavior) ∧
    (trainFile = none ∨ testFile = none →
      exitCode (runMain base trainFile testFile tmp0) = some (-1)) ∧
    (∀ n, (read_data_from_csv none tmp0 n).1 = none) := by
  refine ⟨?_, ?_, fun n => rfl⟩
  · cases trainFile with
    | none => rw [runMain_fail_fst base none testFile tmp0 rfl]; simp [exitCode]
    | some ts =>
      obtain ⟨ld, lc, h, -, -⟩ :=
        read_data_from_csv_some_ex ts tmp0 NUMBER_OF_TRAINING_SAMPLES
      have h1 : (read_data_from_csv (some ts) tmp0
          NUMBER_OF_TRAINING_SAMPLES).1 = some (ld, lc) := by rw [h]
      cases testFile with
      | none =>
        rw [runMain_fail_snd base (some ts) none tmp0 ld lc h1 rfl]
        simp [exitCode]
      | some us =>
        obtain ⟨ed, ec, g, -, -⟩ :=
          read_data_from_csv_some_ex us tmp0 NUMBER_OF_TESTING_SAMPLES
        have g1 : (read_data_from_csv (some us) tmp0
            NUMBER_OF_TESTING_SAMPLES).1 = some (ed, ec) := by rw [g]
        rcases hE : (evalLoop (train_auto base ld lc params0 10).2
            (ed.zip ec) initCounts).1 with _ | counts
        · rw [runMain_ub base (some ts) (some us) tmp0 ld ed lc ec h1 g1 hE]
          simp [exitCode]
        · rw [runMain_ok base (some ts) (some us) tmp0 ld ed lc ec counts
            h1 g1 hE]
          simp [exitCode]
  · intro hor
    rcases hor with hh | hh
    · subst hh; rw [runMain_fail_fst base none testFile tmp0 rfl]; rfl
    · subst hh
      cases trainFile with
      | none => rw [runMain_fail_fst base none none tmp0 rfl]; rfl
      | some ts =>
        obtain ⟨ld, lc, h, -, -⟩ :=
          read_data_from_csv_some_ex ts tmp0 NUMBER_OF_TRAINING_SAMPLES
        have h1 : (read_data_from_csv (some ts) tmp0
            NUMBER_OF_TRAINING_SAMPLES).1 = some (ld, lc) := by rw [h]
        rw [runMain_fail_snd base (some ts) none tmp0 ld lc h1 rfl]
        rfl

/-- Witness for C3: both files unopenable gives exit code -1. -/
theorem claim_C3_witness :
    exitCode (runMain (fun _ _ _ => (fun _ => 0, 0)) none none 0) =
      some (-1) :=
  (claim_C3 (fun _ _ _ => (fun _ => 0, 0)) none none 0).2.1 (Or.inl rfl)

/-- C10: dataset loading short-circuits: when the training file fails to
open, the run exits with a load failure, and the result is independent of
the testing file, of the optimizer and of the scratch value, i.e. the
testing file is never opened or read and no training or evaluation
happens. -/
theorem claim_C10 (base base2 : BaseTrainer) (testFile testFile2 : File)
    (tmp0 tmp2 : ℚ) :
    runMain base none testFile tmp0 = MainResult.loadFailure ∧
    runMain base none testFile tmp0 = runMain base2 none testFile2 tmp2 :=
  ⟨rfl, rfl⟩

/-- C8: the pipeline is deterministic: two runs on equal inputs with the
same (deterministic) external optimizer produce identical results, hence
identical accumulated counts; prediction is a pure function of the model
and the features, and the evaluation loop returns the model unchanged. -/
theorem claim_C8 (base1 base2 : BaseTrainer) (tf1 tf2 uf1 uf2 : File)
    (t1 t2 : ℚ) (hb : base1 = base2) (htf : tf1 = tf2) (huf : uf1 = uf2)
    (ht : t1 = t2) :
    runMain base1 tf1 uf1 t1 = runMain base2 tf2 uf2 t2 ∧
    (∀ m fs, svmPredict m fs = (m.predict fs, m)) ∧
    (∀ samples m acc, (evalLoop m samples acc).2 = m) := by
  subst hb htf huf ht
  exact ⟨rfl, fun _ _ => rfl, fun samples m acc => evalLoop_snd samples m acc⟩

/-- Witness for C8 at concrete inputs. -/
theorem claim_C8_witness :
    runMain (fun _ _ _ => (fun _ => 0, 0)) none none 0 =
      runMain (fun _ _ _ => (fun _ => 0, 0)) none none 0 :=
  (claim_C8 (fun _ _ _ => (fun _ => 0, 0)) (fun _ _ _ => (fun _ => 0, 0))
    none none none none 0 0 rfl rfl rfl rfl).1

/-- C6: the reported percentages are `count * 100 / total_test_samples`
for the correct count, the wrong count and each per-class false-positive
count, and the correct and wrong percentages sum to exactly 100 over the
rationals whenever `correct + wrong` equals the number of test samples. -/
theorem claim_C6 (c : EvalCounts)
    (h : c.correct_class + c.wrong_class = NUMBER_OF_TESTING_SAMPLES) :
    correct_percentage c =
      (c.correct_class : ℚ) * 100 / (NUMBER_OF_TESTING_SAMPLES : ℚ) ∧
    wrong_percentage c =
      (c.wrong_class : ℚ) * 100 / (NUMBER_OF_TESTING_SAMPLES : ℚ) ∧
    (∀ i, fp_percentage c i =
      ((c.false_positives.getD i 0 : Nat) : ℚ) * 100 /
        (NUMBER_OF_TESTING_SAMPLES : ℚ)) ∧
    correct_percentage c + wrong_percentage c = 100 := by
  refine ⟨rfl, rfl, fun _ => rfl, ?_⟩
  have hq : (c.correct_class : ℚ) + (c.wrong_class : ℚ) =
      (NUMBER_OF_TESTING_SAMPLES : ℚ) := by exact_mod_cast h
  rw [correct_percentage, wrong_percentage, div_add_div_same, ← add_mul, hq]
  norm_num [NUMBER_OF_TESTING_SAMPLES]

/-- Witness for C6: counts 1000 and 559 over the 1559 test samples. -/
theorem claim_C6_witness :
    correct_percentage ⟨1000, 559, []⟩ + wrong_percentage ⟨1000, 559, []⟩ =
      100 :=
  (claim_C6 ⟨1000, 559, []⟩ (by decide)).2.2.2


/-- C4: the code, not the claim, is at fault: a training file that opens
but supplies fewer usable rows than expected (here one conforming line
where two lines are expected) makes `read_data_from_csv` return success
with a fabricated second row and label replicated from the stale scan
variable, instead of surfacing any error. -/
theorem claim_C4 :
    read_data_from_csv
        (some (encodeCsv [(List.replicate ATTRIBUTES_PER_SAMPLE 0, 3)])) 0 2 =
      (some ([List.replicate ATTRIBUTES_PER_SAMPLE 0,
              List.replicate ATTRIBUTES_PER_SAMPLE 3], [3, 3]), 0) := by
  have h1 := scanRow_append (List.replicate ATTRIBUTES_PER_SAMPLE (0 : ℚ))
    [3] 0
  rw [List.length_replicate] at h1
  rw [read_data_from_csv_some]
  simp only [loadedData, loadedClasses, encodeCsv]
  simp only [scanLines, h1, scanToken, scanRow_nil]

/-- C5: a file conforming to the dataset format (each line holding
`ATTRIBUTES_PER_SAMPLE` feature tokens and an integer label token in
`[1, NUMBER_OF_CLASSES]`, with exactly the expected number of lines)
loads successfully into a feature matrix of exactly `expected_rows` rows
of `attributes_per_sample` columns and a label vector of labels in range,
with no file handle left open. -/
theorem claim_C5 (samples : List (List ℚ × ℚ)) (tmp0 : ℚ) (n : Nat)
    (hn : n = samples.length)
    (hrowlen : ∀ s ∈ samples, s.1.length = ATTRIBUTES_PER_SAMPLE)
    (hlab : ∀ s ∈ samples, labelInRange s.2) :
    ∃ rows labs,
      read_data_from_csv (some (encodeCsv samples)) tmp0 n =
        (some (rows, labs), 0) ∧
      rows = samples.map Prod.fst ∧ labs = samples.map Prod.snd ∧
      rows.length = n ∧ (∀ r ∈ rows, r.length = ATTRIBUTES_PER_SAMPLE) ∧
      (∀ l ∈ labs, labelInRange l) := by
  subst hn
  obtain ⟨tmp2, hscan⟩ := scanLines_encode samples tmp0 hrowlen
  refine ⟨samples.map Prod.fst, samples.map Prod.snd, ?_, rfl, rfl,
    by simp, ?_, ?_⟩
  · rw [read_data_from_csv_some]
    simp only [loadedData, loadedClasses, hscan]
  · intro r hr
    simp only [List.mem_map] at hr
    obtain ⟨t, ht, rfl⟩ := hr
    exact hrowlen t ht
  · intro l hl
    simp only [List.mem_map] at hl
    obtain ⟨t, ht, rfl⟩ := hl
    exact hlab t ht

/-- Witness for C5: a one-line file with 617 zero features and label 1. -/
theorem claim_C5_witness :
    ∃ rows labs,
      read_data_from_csv
          (some (encodeCsv [(List.replicate ATTRIBUTES_PER_SAMPLE 0, 1)]))
          0 1 =
        (some (rows, labs), 0) ∧
      rows = [(List.replicate ATTRIBUTES_PER_SAMPLE (0 : ℚ), (1 : ℚ))].map
        Prod.fst ∧
      labs = [(List.replicate ATTRIBUTES_PER_SAMPLE (0 : ℚ), (1 : ℚ))].map
        Prod.snd ∧
      rows.length = 1 ∧
      (∀ r ∈ rows, r.length = ATTRIBUTES_PER_SAMPLE) ∧
      (∀ l ∈ labs, labelInRange l) :=
  claim_C5 [(List.replicate ATTRIBUTES_PER_SAMPLE 0, 1)] 0 1 (by simp)
    (by
      intro t ht
      simp only [List.mem_cons, List.not_mem_nil, or_false] at ht
      rw [ht]
      simp)
    (by
      intro t ht
      simp only [List.mem_cons, List.not_mem_nil, or_false] at ht
      rw [ht]
      exact ⟨1, by norm_num, by norm_num, by norm_num [NUMBER_OF_CLASSES]⟩)

/-- C7: with grid search active, training runs the auto-training search
with 10 folds; the search ranges over the predefined `C` grid with the
kernel and its parameters held fixed, picks a `C` with minimal
cross-validated error, the effective configuration reported afterwards is
the one read back from the trained model, and the support-vector count of
the trained model is a non-negative diagnostic. -/
theorem claim_C7 (base : BaseTrainer) :
    (∀ data classes pms k,
      (train_auto base data classes pms k).1.kernel_type = pms.kernel_type ∧
      (train_auto base data classes pms k).1.svm_type = pms.svm_type ∧
      (train_auto base data classes pms k).1.degree = pms.degree ∧
      (train_auto base data classes pms k).1.gamma = pms.gamma ∧
      (train_auto base data classes pms k).1.coef0 = pms.coef0 ∧
      (train_auto base data classes pms k).1.C ∈ c_grid ∧
      (∀ c ∈ c_grid,
        cvError base pms k (train_auto base data classes pms k).1.C
          (data.zip classes) ≤ cvError base pms k c (data.zip classes)) ∧
      get_params (train_auto base data classes pms k).2 =
        (train_auto base data classes pms k).1 ∧
      (0 : ℤ) ≤
        ((train_auto base data classes pms k).2.support_vector_count : ℤ)) ∧
    (∀ tf uf : File, ∀ (tmp0 : ℚ) p sv cts,
      runMain base tf uf tmp0 = MainResult.ok p sv cts →
      ∃ td tc,
        (read_data_from_csv tf tmp0 NUMBER_OF_TRAINING_SAMPLES).1 =
          some (td, tc) ∧
        p = get_params (train_auto base td tc params0 10).2 ∧
        sv = (train_auto base td tc params0 10).2.support_vector_count) := by
  constructor
  · intro data classes pms k
    refine ⟨rfl, rfl, rfl, rfl, rfl,
      selectC_mem (fun c => cvError base pms k c (data.zip classes)),
      fun c hc =>
        selectC_min (fun c => cvError base pms k c (data.zip classes)) c hc,
      rfl, by positivity⟩
  · intro tf uf tmp0 p sv cts hrun
    cases tf with
    | none =>
      rw [runMain_fail_fst base none uf tmp0 rfl] at hrun
      exact absurd hrun (by simp)
    | some ts =>
      obtain ⟨ld, lc, h, -, -⟩ :=
        read_data_from_csv_some_ex ts tmp0 NUMBER_OF_TRAINING_SAMPLES
      have h1 : (read_data_from_csv (some ts) tmp0
          NUMBER_OF_TRAINING_SAMPLES).1 = some (ld, lc) := by rw [h]
      cases uf with
      | none =>
        rw [runMain_fail_snd base (some ts) none tmp0 ld lc h1 rfl] at hrun
        exact absurd hrun (by simp)
      | some us =>
        obtain ⟨ed, ec, g, -, -⟩ :=
          read_data_from_csv_some_ex us tmp0 NUMBER_OF_TESTING_SAMPLES
        have g1 : (read_data_from_csv (some us) tmp0
            NUMBER_OF_TESTING_SAMPLES).1 = some (ed, ec) := by rw [g]
        rcases hE : (evalLoop (train_auto base ld lc params0 10).2
            (ed.zip ec) initCounts).1 with _ | counts
        · rw [runMain_ub base (some ts) (some us) tmp0 ld ed lc ec h1 g1
            hE] at hrun
          exact absurd hrun (by simp)
        · rw [runMain_ok base (some ts) (some us) tmp0 ld ed lc ec counts
            h1 g1 hE] at hrun
          injection hrun with hp hsv hcts
          exact ⟨ld, lc, h1, hp.symm, hsv.symm⟩

/-- Witness for C7: with a trivial external optimizer and the empty
training set, the selected grid point has minimal cross-validated error,
compared here against the grid point one tenth. -/
theorem claim_C7_witness :
    cvError (fun _ _ _ => (fun _ => 0, 0)) params0 10
        (train_auto (fun _ _ _ => (fun _ => 0, 0)) [] [] params0 10).1.C
        (([] : List (List ℚ)).zip ([] : List ℚ)) ≤
      cvError (fun _ _ _ => (fun _ => 0, 0)) params0 10 (1 / 10)
        (([] : List (List ℚ)).zip ([] : List ℚ)) :=
  ((claim_C7 (fun _ _ _ => (fun _ => 0, 0))).1 [] [] params0 10).2.2.2.2.2.2.1
    (1 / 10) (by simp [c_grid])

end SpeechSvm
